import Mathlib

/-!
A shallow embedding of `src/finance_tracker.py` (classes `Transaction` and
`FinanceTracker`) and proofs about it.

Modelling conventions:
  - Python floats (`amount`) are embedded as `Int`.  The claims under
    verification concern structure (absolute values, equality, ordering of
    sums), none of which depends on fractional values.
  - The wall clock is an explicit parameter: `now` is the current date as a
    string and `micros` is `int(datetime.now().timestamp() * 1000000)`.
  - File I/O is explicit: the content of the data file is passed to
    `load_data` as a `JValue` (parsed JSON), and mutating operations return
    the JSON document they write (`Option JValue`) instead of writing it.
  - Python exceptions are modelled with `Except PyErr`; a caught exception is
    routed by `match`, an uncaught one is the `.error` result of the caller.
  - Python string operations (`str.lower`, lexicographic `<=`) are embedded
    as executable functions on the underlying character lists (`pyLower`,
    `pyStrLe`); they agree with CPython on ASCII data, which is all the
    claims use.
-/

/-- Lowercase a single character, ASCII range only (CPython's `str.lower`
restricted to ASCII, which is all the program's data uses). -/
def pyCharLower (c : Char) : Char :=
  if 65 ≤ c.toNat ∧ c.toNat ≤ 90 then Char.ofNat (c.toNat + 32) else c

/-- Uppercase a single character, ASCII range only. -/
def pyCharUpper (c : Char) : Char :=
  if 97 ≤ c.toNat ∧ c.toNat ≤ 122 then Char.ofNat (c.toNat - 32) else c

/-- Embedding of Python `s.lower()`. -/
def pyLower (s : String) : String := ⟨s.data.map pyCharLower⟩

/-- Embedding of Python `s.upper()` (used by `generate_report`). -/
def pyUpper (s : String) : String := ⟨s.data.map pyCharUpper⟩

/-- Lexicographic comparison of character lists by code point; embedding of
Python's `<=` on strings. -/
def lexLe : List Char → List Char → Bool
  | [], _ => true
  | _ :: _, [] => false
  | c :: cs, d :: ds => if c.toNat = d.toNat then lexLe cs ds else decide (c.toNat < d.toNat)

/-- Embedding of Python `a <= b` on strings (code-point lexicographic). -/
def pyStrLe (a b : String) : Bool := lexLe a.data b.data

/-- Insert `x` into `l`, placing it before the first element it strictly
precedes under `le`.  Used to model Python's stable `sorted`. -/
def insertBy (le : α → α → Bool) (x : α) : List α → List α
  | [] => [x]
  | y :: ys => if le x y && !(le y x) then x :: y :: ys else y :: insertBy le x ys

/-- Stable insertion sort: the embedding of Python's `sorted` with a key
function (`le a b` = "a may come before b").  Later elements with equal keys
stay after earlier ones, as in CPython's stable sort. -/
def sortBy (le : α → α → Bool) (l : List α) : List α :=
  l.foldl (fun acc x => insertBy le x acc) []

/-- Parsed JSON values, the contents of the persistence file. -/
inductive JValue where
  | jnull : JValue
  | jbool : Bool → JValue
  | jnum : Int → JValue
  | jstr : String → JValue
  | jarr : List JValue → JValue
  | jobj : List (String × JValue) → JValue

/-- The Python exception classes the program can raise.
`valueError` is the `ValueError` raised by `add_transaction`;
`keyError` arises from `data[missing_key]`; `typeError` from iterating or
subscripting a non-sequence, `abs` of a non-number, or `list + non-list`;
`attrError` from calling `.get`/`.items`/`.lower` on a value without them. -/
inductive PyErr where
  | keyError
  | typeError
  | valueError
  | attrError
  deriving DecidableEq

/-- Lookup in a parsed JSON object.  Last binding wins, as in `json.load`
(duplicate keys in the document keep the last occurrence). -/
def lookupKey (l : List (String × JValue)) (k : String) : Option JValue :=
  l.foldl (fun acc p => if p.1 = k then some p.2 else acc) none

/-- Embedding of `d[k]` on a parsed JSON value: `KeyError` when the key is
absent, `TypeError` when `d` is not an object (e.g. string indices must be
integers). -/
def getItem : JValue → String → Except PyErr JValue
  | .jobj l, k =>
    match lookupKey l k with
    | some v => .ok v
    | none => .error .keyError
  | _, _ => .error .typeError

/-- Embedding of `d.get(k, dflt)`: `AttributeError` when `d` is not a dict. -/
def dictGet : JValue → String → JValue → Except PyErr JValue
  | .jobj l, k, dflt => .ok ((lookupKey l k).getD dflt)
  | _, _, _ => .error .attrError

/-- Expect a Python number (the program applies `abs` to it).  CPython's
`bool` is an `int` subclass, so `abs(True) = 1` and `abs(False) = 0` succeed;
`abs` of any other non-number raises `TypeError`. -/
def asNum : JValue → Except PyErr Int
  | .jnum n => .ok n
  | .jbool b => .ok (if b then 1 else 0)
  | _ => .error .typeError

/-- Expect a JSON string.  For the `type` field this is where Python's
`.lower()` would raise `AttributeError`.  For `category`, `description` and
`date` the source stores the raw value without any operation; the embedding
types entries, so it additionally requires those fields to be strings — every
claim settled here evaluates `from_dict` only at records where the two
agree. -/
def asStr : JValue → Except PyErr String
  | .jstr s => .ok s
  | _ => .error .attrError

/-- Embedding of `for t in v`: CPython iterates any iterable — an array
yields its elements, a string yields its characters (each a one-character
string), a dict yields its keys — so an empty string or empty dict iterates
zero times and the comprehension succeeds with an empty list; `null`, a
number or a boolean is not iterable and raises `TypeError`. -/
def pyIter : JValue → Except PyErr (List JValue)
  | .jarr l => .ok l
  | .jstr s => .ok (s.data.map (fun c => .jstr ⟨[c]⟩))
  | .jobj l => .ok (l.map (fun p => .jstr p.1))
  | _ => .error .typeError

/-- Expect a JSON object (`.items()` on a non-dict raises `AttributeError`). -/
def asObj : JValue → Except PyErr (List (String × JValue))
  | .jobj l => .ok l
  | _ => .error .attrError

/-- Whether a JSON value is hashable as a Python value: arrays (lists) and
objects (dicts) are unhashable, everything else is hashable. -/
def pyHashable : JValue → Bool
  | .jarr _ => false
  | .jobj _ => false
  | _ => true

/-- The string elements of a category list. -/
def strOfHashable : JValue → Option String
  | .jstr s => some s
  | _ => none

/-- Embedding of `list(set(existing + cats))`'s demands on `cats`:
`existing + cats` raises `TypeError` when `cats` is not a list, and `set`
raises `TypeError` on an unhashable element; any list of hashable values is
accepted.  CPython keeps non-string hashable elements (numbers, booleans,
null) in the vocabulary; the embedding types vocabularies as string lists and
drops them.  That drop is invisible to every observation the program makes:
the only reads of a vocabulary compare it against the (string) category of an
`add` call or enumerate it, and a string never equals a non-string, so the
raise/no-raise classification and all membership facts about string
categories are preserved. -/
def asStrList : JValue → Except PyErr (List String)
  | .jarr l => if l.all pyHashable then .ok (l.filterMap strOfHashable)
      else .error .typeError
  | _ => .error .typeError

/-- `Transaction` (finance_tracker.py lines 14-53): one financial movement. -/
structure Transaction where
  id : Int
  amount : Int
  category : String
  description : String
  transaction_type : String
  date : String
  deriving DecidableEq

/-- `Transaction._generate_id` (lines 26-29):
`int(datetime.now().timestamp() * 1000000) % 1000000`, with the already
truncated integer microsecond count as the explicit clock parameter.
Python `%` with a positive modulus is Euclidean remainder, as is Lean's
`Int.emod`. -/
def generate_id (micros : Int) : Int := micros % 1000000

/-- Python truthiness applied to the optional `date` argument:
`date or datetime.now().strftime(...)` — `None` and `""` both fall back to
the current date. -/
def pyOrDate (date : Option String) (now : String) : String :=
  match date with
  | none => now
  | some s => if s = "" then now else s

/-- `Transaction.__init__` (lines 17-24): stores `abs(amount)`, lowercases the
type, defaults the date to `now`.  `newId` is the value `_generate_id()`
returned for this call. -/
def Transaction.make (newId : Int) (amount : Int) (category description transaction_type : String)
    (date : Option String) (now : String) : Transaction :=
  { id := newId
    amount := |amount|
    category := category
    description := description
    transaction_type := pyLower transaction_type
    date := pyOrDate date now }

/-- `Transaction.to_dict` (lines 31-40). -/
def Transaction.to_dict (t : Transaction) : JValue :=
  .jobj [("id", .jnum t.id), ("amount", .jnum t.amount), ("category", .jstr t.category),
         ("description", .jstr t.description), ("type", .jstr t.transaction_type),
         ("date", .jstr t.date)]

/-- `Transaction.from_dict` (lines 42-53): the five keyword arguments are read
in call order (each a possible `KeyError`), then `__init__` runs (`abs`,
`.lower()`, date truthiness), then the freshly generated id is overwritten
with `data['id']`.  Since that generated id is never observable, the
embedding passes `0` for it. -/
def Transaction.from_dict (data : JValue) (now : String) : Except PyErr Transaction := do
  let amountV ← getItem data "amount"
  let categoryV ← getItem data "category"
  let descriptionV ← getItem data "description"
  let typeV ← getItem data "type"
  let dateV ← getItem data "date"
  let amount ← asNum amountV
  let category ← asStr categoryV
  let description ← asStr descriptionV
  let ttype ← asStr typeV
  let date ← asStr dateV
  let t := Transaction.make 0 amount category description ttype (some date) now
  let idV ← getItem data "id"
  let idNum ← asNum idV
  .ok { t with id := idNum }

/-- The two category vocabularies, the value of `self.categories`
(a dict whose keys are always exactly `income` and `expense`). -/
structure Categories where
  income : List String
  expense : List String
  deriving DecidableEq

/-- The default vocabularies from `FinanceTracker.__init__` (lines 62-66). -/
def default_categories : Categories :=
  { income := ["Salary", "Freelance", "Investment", "Gift", "Other Income"]
    expense := ["Food", "Transportation", "Entertainment", "Bills", "Shopping",
                "Healthcare", "Education", "Travel", "Other Expense"] }

/-- The in-memory state of a `FinanceTracker` (lines 56-67): the entry
collection and the category vocabularies.  The data-file name is not part of
the model; file contents are passed explicitly. -/
structure FinanceTracker where
  transactions : List Transaction
  categories : Categories
  deriving DecidableEq

/-- `list(set(existing + cats))` from `load_data` line 81: a duplicate-free
union.  CPython's `set` iteration order is arbitrary, so only membership in
the result is meaningful; the embedding picks `dedup`. -/
def mergeCats (a b : List String) : List String := (a ++ b).dedup

/-- The category-merge loop of `load_data` (lines 77-81): for each key of the
file's `categories` mapping that is one of the two known kinds, replace that
vocabulary with its union with the file's list. -/
def loadCategories : Categories → List (String × JValue) → Except PyErr Categories
  | cats, [] => .ok cats
  | cats, (k, v) :: rest =>
    if k = "income" then do
      let cs ← asStrList v
      loadCategories { cats with income := mergeCats cats.income cs } rest
    else if k = "expense" then do
      let cs ← asStrList v
      loadCategories { cats with expense := mergeCats cats.expense cs } rest
    else loadCategories cats rest

/-- The body of the `try` block in `load_data` (lines 73-81), on an already
parsed JSON document: read `transactions` (default `[]`), build the entry
list, then merge the file's categories into the defaults. -/
def loadBody (data : JValue) (now : String) : Except PyErr FinanceTracker := do
  let txnsV ← dictGet data "transactions" (.jarr [])
  let items ← pyIter txnsV
  let txns ← items.mapM (fun t => Transaction.from_dict t now)
  let catsV ← dictGet data "categories" (.jobj [])
  let fileCats ← asObj catsV
  let cats ← loadCategories default_categories fileCats
  .ok { transactions := txns, categories := cats }

/-- `FinanceTracker.__init__` + `load_data` (lines 59-83).  The file argument:
`none` = the file does not exist (the `os.path.exists` guard),
`some none` = the file exists but `json.load` fails (`JSONDecodeError`),
`some (some v)` = the file parses to `v`.
The `except` clause catches exactly `JSONDecodeError` and `KeyError`; a
`KeyError` can only arise inside `from_dict`, before `self.transactions` is
assigned and before any category is merged, so the recovered state is the
empty collection with the default vocabularies.  Any other exception
(`TypeError`, `AttributeError`) propagates out of the constructor. -/
def load_data (file : Option (Option JValue)) (now : String) : Except PyErr FinanceTracker :=
  match file with
  | none => .ok { transactions := [], categories := default_categories }
  | some none => .ok { transactions := [], categories := default_categories }
  | some (some data) =>
    match loadBody data now with
    | .ok s => .ok s
    | .error .keyError => .ok { transactions := [], categories := default_categories }
    | .error e => .error e

/-- `FinanceTracker.save_data` (lines 85-92): the JSON document written to the
file. -/
def save_data (s : FinanceTracker) : JValue :=
  .jobj [("transactions", .jarr (s.transactions.map Transaction.to_dict)),
         ("categories", .jobj [("income", .jarr (s.categories.income.map .jstr)),
                               ("expense", .jarr (s.categories.expense.map .jstr))])]

/-- The category bookkeeping of `add_transaction` (lines 101-103): append the
category to the vocabulary of the (already validated, lowercased) kind when
absent. -/
def addCategory (cats : Categories) (kind : String) (category : String) : Categories :=
  if kind = "income" then
    if category ∈ cats.income then cats else { cats with income := cats.income ++ [category] }
  else
    if category ∈ cats.expense then cats else { cats with expense := cats.expense ++ [category] }

/-- `FinanceTracker.add_transaction` (lines 94-108).  Returns the state after
the call, the returned transaction (or the raised `ValueError`), and the JSON
document written by the triggered `save_data` (or `none` when nothing was
written).  The validation raise precedes every mutation in the source, so on
the error path the state is returned unchanged. -/
def add_transaction (s : FinanceTracker) (amount : Int)
    (category description transaction_type : String) (date : Option String)
    (now : String) (micros : Int) :
    FinanceTracker × Except PyErr Transaction × Option JValue :=
  if pyLower transaction_type ∉ (["income", "expense"] : List String) then
    (s, .error .valueError, none)
  else
    let cats := addCategory s.categories (pyLower transaction_type) category
    let t := Transaction.make (generate_id micros) amount category description
      transaction_type date now
    let s2 : FinanceTracker := { transactions := s.transactions ++ [t], categories := cats }
    (s2, .ok t, some (save_data s2))

/-- `FinanceTracker.delete_transaction` (lines 126-133): keep every
transaction whose id differs (a list comprehension — it drops all matches,
not only the first), save and return `True` exactly when the length
decreased. -/
def delete_transaction (s : FinanceTracker) (transaction_id : Int) :
    FinanceTracker × Bool × Option JValue :=
  let remaining := s.transactions.filter (fun t => t.id ≠ transaction_id)
  let s2 : FinanceTracker := { s with transactions := remaining }
  if remaining.length < s.transactions.length then (s2, true, some (save_data s2))
  else (s2, false, none)

/-- One optional-argument filter step of `get_transactions`: Python's
`if arg:` guard treats both `None` and the empty string as "not given". -/
def filterArg (l : List Transaction) (arg : Option String) (p : String → Transaction → Bool) :
    List Transaction :=
  match arg with
  | none => l
  | some a => if a = "" then l else l.filter (p a)

/-- The sort order of `get_transactions`: `sorted(key=lambda x: x.date,
reverse=True)`, i.e. `a` may precede `b` when `b.date <= a.date`. -/
def dateDescLe (a b : Transaction) : Bool := pyStrLe b.date a.date

/-- `FinanceTracker.get_transactions` (lines 110-124): four optional filters
applied in order, then a stable sort by date descending.  The source filters
a copy (`self.transactions.copy()`) and never mutates the store, which the
embedding reflects by being a pure function of the state. -/
def get_transactions (s : FinanceTracker)
    (start_date end_date category transaction_type : Option String) : List Transaction :=
  let l1 := filterArg s.transactions start_date (fun a t => pyStrLe a t.date)
  let l2 := filterArg l1 end_date (fun a t => pyStrLe t.date a)
  let l3 := filterArg l2 category (fun a t => pyLower t.category = pyLower a)
  let l4 := filterArg l3 transaction_type (fun a t => t.transaction_type = pyLower a)
  sortBy dateDescLe l4

/-- The result dictionary of `get_balance`. -/
structure Balance where
  income : Int
  expenses : Int
  balance : Int
  deriving DecidableEq

/-- `FinanceTracker.get_balance` (lines 135-147). -/
def get_balance (s : FinanceTracker) (start_date end_date : Option String) : Balance :=
  let ts := get_transactions s start_date end_date none none
  let total_income := ((ts.filter (fun t => t.transaction_type = "income")).map
    Transaction.amount).sum
  let total_expenses := ((ts.filter (fun t => t.transaction_type = "expense")).map
    Transaction.amount).sum
  { income := total_income, expenses := total_expenses,
    balance := total_income - total_expenses }

/-- The two per-kind category totals of `get_category_summary`, each an
insertion-ordered mapping from category name to summed amount. -/
structure Summary where
  income : List (String × Int)
  expense : List (String × Int)
  deriving DecidableEq

/-- One `summary[cat_type][category] += amount` step: update the existing
binding in place, or append a fresh one (dicts preserve insertion order). -/
def addToSummary (m : List (String × Int)) (k : String) (v : Int) : List (String × Int) :=
  if m.any (fun p => p.1 = k) then
    m.map (fun p => if p.1 = k then (p.1, p.2 + v) else p)
  else m ++ [(k, v)]

/-- The accumulation loop of `get_category_summary` (lines 155-161):
`summary[cat_type]` raises `KeyError` when a transaction's type is neither
`income` nor `expense` (the dict has exactly those two keys). -/
def buildSummary : List Transaction → Summary → Except PyErr Summary
  | [], acc => .ok acc
  | t :: ts, acc =>
    if t.transaction_type = "income" then
      buildSummary ts { acc with income := addToSummary acc.income t.category t.amount }
    else if t.transaction_type = "expense" then
      buildSummary ts { acc with expense := addToSummary acc.expense t.category t.amount }
    else .error .keyError

/-- `FinanceTracker.get_category_summary` (lines 149-163). -/
def get_category_summary (s : FinanceTracker) (start_date end_date : Option String) :
    Except PyErr Summary :=
  buildSummary (get_transactions s start_date end_date none none) { income := [], expense := [] }

/-- Fixed-point rendering of an embedded (integral) amount with two decimals,
the `:.2f` part of the report's format specifiers. -/
def fmt2 (n : Int) : String := toString n ++ ".00"

/-- Right-align into a field of width `w` (`:>w`). -/
def padLeft (w : Nat) (s : String) : String := ⟨List.replicate (w - s.length) ' ' ++ s.data⟩

/-- Left-align into a field of width `w` (`:<w`). -/
def padRight (w : Nat) (s : String) : String := ⟨s.data ++ List.replicate (w - s.length) ' '⟩

/-- The sort order of the report's category blocks:
`sorted(summary.items(), key=lambda x: x[1], reverse=True)`. -/
def amountDescLe (a b : String × Int) : Bool := decide (b.2 ≤ a.2)

/-- A category block's ordered listing (lines 191-193 and 199-201). -/
def sortByAmountDesc (l : List (String × Int)) : List (String × Int) :=
  sortBy amountDescLe l

/-- The rendered lines of one category block, in sorted order:
`f"  {category:<20} ${amount:>8.2f}\n"` for each pair. -/
def categoryLines (m : List (String × Int)) : String :=
  (sortByAmountDesc m).foldl
    (fun acc p => acc ++ "  " ++ padRight 20 p.1 ++ " $" ++ padLeft 8 (fmt2 p.2) ++ "\n") ""

/-- The income block (lines 188-194): omitted entirely (empty string) when
the income summary is empty (`if category_summary['income']:`). -/
def incomeBlock (m : List (String × Int)) : String :=
  if m = [] then "" else "INCOME BY CATEGORY:\n" ++ categoryLines m ++ "\n"

/-- The expense block (lines 196-201): omitted entirely when the expense
summary is empty. -/
def expenseBlock (m : List (String × Int)) : String :=
  if m = [] then "" else "EXPENSES BY CATEGORY:\n" ++ categoryLines m

/-- The `'='*50` separator line. -/
def eqLine : String := ⟨List.replicate 50 '='⟩

/-- The full report text (lines 179-203) as a function of the period tag, the
balance and the category summary. -/
def reportText (period : String) (b : Balance) (cs : Summary) : String :=
  "\n" ++ eqLine ++ "\n" ++ "FINANCIAL REPORT - " ++ pyUpper period ++ "\n" ++ eqLine
    ++ "\n\n" ++ "SUMMARY:\n"
    ++ "Total Income:    $" ++ padLeft 10 (fmt2 b.income) ++ "\n"
    ++ "Total Expenses:  $" ++ padLeft 10 (fmt2 b.expenses) ++ "\n"
    ++ "Net Balance:     $" ++ padLeft 10 (fmt2 b.balance) ++ "\n\n"
    ++ incomeBlock cs.income ++ expenseBlock cs.expense

/-- The period-to-start-date mapping of `generate_report` (lines 167-174).
The three date-offset computations
`(datetime.now() - timedelta(days=d)).strftime(...)` are clock reads, passed
in as `now7`, `now30`, `now365`; any unknown period means no lower bound. -/
def periodStart (period : String) (now7 now30 now365 : String) : Option String :=
  if period = "week" then some now7
  else if period = "month" then some now30
  else if period = "year" then some now365
  else none

/-- `FinanceTracker.generate_report` (lines 165-203): compute `get_balance`
and `get_category_summary` over the period's start date, then render.  A
`KeyError` from the summary loop propagates (there is no handler). -/
def generate_report (s : FinanceTracker) (period : String) (now7 now30 now365 : String) :
    Except PyErr String := do
  let start_date : Option String := periodStart period now7 now30 now365
  let b := get_balance s start_date none
  let cs ← get_category_summary s start_date none
  .ok (reportText period b cs)

/-! ### General lemmas about the embedded primitives -/

theorem lexLe_total (a b : List Char) : lexLe a b = true ∨ lexLe b a = true := by
  induction a generalizing b with
  | nil => left; rfl
  | cons c cs ih =>
    cases b with
    | nil => right; rfl
    | cons d ds =>
      by_cases h : c.toNat = d.toNat
      · rcases ih ds with h1 | h1
        · left; simp [lexLe, h, h1]
        · right; simp [lexLe, h.symm, h1]
      · rcases Nat.lt_or_ge c.toNat d.toNat with h1 | h1
        · left; simp [lexLe, h, h1]
        · right
          have h2 : d.toNat < c.toNat := lt_of_le_of_ne h1 (fun he => h he.symm)
          simp only [lexLe]
          rw [if_neg (Nat.ne_of_lt h2), decide_eq_true_eq]
          exact h2

theorem lexLe_trans (a b c : List Char) (h1 : lexLe a b = true) (h2 : lexLe b c = true) :
    lexLe a c = true := by
  induction a generalizing b c with
  | nil => rfl
  | cons x xs ih =>
    cases b with
    | nil => simp [lexLe] at h1
    | cons y ys =>
      cases c with
      | nil => simp [lexLe] at h2
      | cons z zs =>
        simp only [lexLe] at h1 h2 ⊢
        by_cases hxy : x.toNat = y.toNat
        · by_cases hyz : y.toNat = z.toNat
          · have hxz : x.toNat = z.toNat := hxy.trans hyz
            rw [if_pos hxy] at h1
            rw [if_pos hyz] at h2
            rw [if_pos hxz]
            exact ih ys zs h1 h2
          · rw [if_neg hyz] at h2
            have hlt : y.toNat < z.toNat := of_decide_eq_true h2
            have hxz : x.toNat < z.toNat := hxy ▸ hlt
            rw [if_neg (Nat.ne_of_lt hxz), decide_eq_true_eq]
            exact hxz
        · rw [if_neg hxy] at h1
          have hlt : x.toNat < y.toNat := of_decide_eq_true h1
          by_cases hyz : y.toNat = z.toNat
          · have hxz : x.toNat < z.toNat := hyz ▸ hlt
            rw [if_neg (Nat.ne_of_lt hxz), decide_eq_true_eq]
            exact hxz
          · rw [if_neg hyz] at h2
            have hlt2 : y.toNat < z.toNat := of_decide_eq_true h2
            have hxz : x.toNat < z.toNat := hlt.trans hlt2
            rw [if_neg (Nat.ne_of_lt hxz), decide_eq_true_eq]
            exact hxz

theorem insertBy_perm (le : α → α → Bool) (x : α) (l : List α) :
    (insertBy le x l).Perm (x :: l) := by
  induction l with
  | nil => exact List.Perm.refl _
  | cons y ys ih =>
    by_cases h : (le x y && !le y x) = true
    · simp [insertBy, h]
    · simp only [insertBy, if_neg h]
      exact (ih.cons y).trans (List.Perm.swap x y ys)

theorem sortBy_aux_perm (le : α → α → Bool) (l : List α) :
    ∀ acc : List α, (l.foldl (fun acc x => insertBy le x acc) acc).Perm (acc ++ l) := by
  induction l with
  | nil => intro acc; simp
  | cons x xs ih =>
    intro acc
    have h1 := ih (insertBy le x acc)
    have h2 : (insertBy le x acc ++ xs).Perm ((x :: acc) ++ xs) :=
      (insertBy_perm le x acc).append_right xs
    exact (h1.trans h2).trans List.perm_middle.symm

theorem sortBy_perm (le : α → α → Bool) (l : List α) : (sortBy le l).Perm l := by
  simpa [sortBy] using sortBy_aux_perm le l []

theorem mem_sortBy (le : α → α → Bool) (x : α) (l : List α) :
    x ∈ sortBy le l ↔ x ∈ l :=
  (sortBy_perm le l).mem_iff

theorem insertBy_sorted (le : α → α → Bool)
    (htot : ∀ a b, le a b = true ∨ le b a = true)
    (htrans : ∀ a b c, le a b = true → le b c = true → le a c = true)
    (x : α) (l : List α) (hl : List.Sorted (fun a b => le a b = true) l) :
    List.Sorted (fun a b => le a b = true) (insertBy le x l) := by
  induction l with
  | nil => simp [insertBy]
  | cons y ys ih =>
    rw [List.sorted_cons] at hl
    by_cases h : (le x y && !le y x) = true
    · rw [insertBy, if_pos h]
      rw [Bool.and_eq_true] at h
      rw [List.sorted_cons]
      refine ⟨?_, List.sorted_cons.mpr hl⟩
      intro b hb
      rcases List.mem_cons.mp hb with rfl | hb
      · exact h.1
      · exact htrans x y b h.1 (hl.1 b hb)
    · rw [insertBy, if_neg h]
      rw [List.sorted_cons]
      refine ⟨?_, ih hl.2⟩
      intro b hb
      rcases List.mem_cons.mp ((insertBy_perm le x ys).mem_iff.mp hb) with heq | h1
      · subst heq
        by_cases hyx : le y b = true
        · exact hyx
        · exfalso
          apply h
          have hxy : le b y = true := (htot b y).resolve_right hyx
          have hyx' : le y b = false := by
            cases hle : le y b
            · rfl
            · exact absurd hle hyx
          simp [hxy, hyx']
      · exact hl.1 b h1

theorem sortBy_sorted (le : α → α → Bool)
    (htot : ∀ a b, le a b = true ∨ le b a = true)
    (htrans : ∀ a b c, le a b = true → le b c = true → le a c = true)
    (l : List α) : List.Sorted (fun a b => le a b = true) (sortBy le l) := by
  suffices h : ∀ acc : List α, List.Sorted (fun a b => le a b = true) acc →
      List.Sorted (fun a b => le a b = true)
        (l.foldl (fun acc x => insertBy le x acc) acc) by
    exact h [] (by simp)
  induction l with
  | nil => intro acc hacc; exact hacc
  | cons x xs ih =>
    intro acc hacc
    exact ih (insertBy le x acc) (insertBy_sorted le htot htrans x acc hacc)

theorem dateDescLe_total (a b : Transaction) : dateDescLe a b = true ∨ dateDescLe b a = true :=
  (lexLe_total b.date.data a.date.data).imp id id

theorem dateDescLe_trans (a b c : Transaction) (h1 : dateDescLe a b = true)
    (h2 : dateDescLe b c = true) : dateDescLe a c = true :=
  lexLe_trans c.date.data b.date.data a.date.data h2 h1

theorem amountDescLe_total (a b : String × Int) :
    amountDescLe a b = true ∨ amountDescLe b a = true := by
  simp only [amountDescLe, decide_eq_true_eq]
  omega

theorem amountDescLe_trans (a b c : String × Int) (h1 : amountDescLe a b = true)
    (h2 : amountDescLe b c = true) : amountDescLe a c = true := by
  simp only [amountDescLe, decide_eq_true_eq] at h1 h2 ⊢
  omega

/-! ### Claim theorems -/

/-- C10: every id assigned at entry creation is a non-negative integer
strictly less than 1,000,000: the timestamp-derived value is reduced modulo
1,000,000, for every creation time (every integer microsecond count,
including pre-epoch negative ones — Python `%` with a positive modulus is
non-negative, as is `Int.emod`). -/
theorem generate_id_in_range (micros : Int) :
    0 ≤ generate_id micros ∧ generate_id micros < 1000000 :=
  ⟨Int.emod_nonneg micros (by decide), Int.emod_lt_of_pos micros (by decide)⟩

/-- C9: `add_transaction` accepts the kind case-insensitively — whenever the
lowercased kind is `income` or `expense` the call succeeds, the stored kind is
the lowercase normal form of the input, and that stored kind therefore equals
`"income"` or `"expense"` exactly. -/
theorem add_transaction_case_insensitive (s : FinanceTracker) (amount : Int)
    (category description transaction_type : String) (date : Option String)
    (now : String) (micros : Int)
    (h : pyLower transaction_type = "income" ∨ pyLower transaction_type = "expense") :
    ∃ t : Transaction,
      (add_transaction s amount category description transaction_type date now micros).2.1
        = .ok t ∧
      t.transaction_type = pyLower transaction_type ∧
      (t.transaction_type = "income" ∨ t.transaction_type = "expense") := by
  have hmem : pyLower transaction_type ∈ (["income", "expense"] : List String) := by
    rcases h with h | h <;> simp [h]
  refine ⟨Transaction.make (generate_id micros) amount category description transaction_type
    date now, ?_, rfl, h⟩
  simp [add_transaction, hmem]

/-- C9 witness: the concrete kind `"EXPENSE"` is accepted and stored
lowercased. -/
theorem add_transaction_case_insensitive_witness :
    ∃ t : Transaction,
      (add_transaction { transactions := [], categories := default_categories } 10 "Food" "d"
        "EXPENSE" none "2024-01-02" 0).2.1 = .ok t ∧
      t.transaction_type = pyLower "EXPENSE" ∧
      (t.transaction_type = "income" ∨ t.transaction_type = "expense") :=
  add_transaction_case_insensitive { transactions := [], categories := default_categories }
    10 "Food" "d" "EXPENSE" none "2024-01-02" 0 (by decide)

/-- C3: `add_transaction` with a kind whose lowercase form is neither
`income` nor `expense` raises `ValueError` (the `InvalidKind` error) before
any mutation: the state after the call is exactly the input state — the entry
collection and both category vocabularies are untouched — and no save is
performed. -/
theorem add_transaction_invalid_kind (s : FinanceTracker) (amount : Int)
    (category description transaction_type : String) (date : Option String)
    (now : String) (micros : Int)
    (h : ¬(pyLower transaction_type = "income" ∨ pyLower transaction_type = "expense")) :
    add_transaction s amount category description transaction_type date now micros
      = (s, .error .valueError, none) := by
  have hmem : pyLower transaction_type ∉ (["income", "expense"] : List String) := by
    simpa using h
  simp [add_transaction, hmem]

/-- C3 witness: the concrete kind `"transfer"` is rejected and the concrete
store is returned unchanged, with no save. -/
theorem add_transaction_invalid_kind_witness :
    add_transaction { transactions := [], categories := default_categories } 10 "Food" "d"
      "transfer" none "2024-01-02" 0
      = ({ transactions := [], categories := default_categories }, .error .valueError, none) :=
  add_transaction_invalid_kind { transactions := [], categories := default_categories }
    10 "Food" "d" "transfer" none "2024-01-02" 0 (by decide)

/-- A store whose two entries both carry id 1 — one of the states the C1
claim explicitly quantifies over. -/
def dupIdStore : FinanceTracker :=
  { transactions :=
      [{ id := 1, amount := 5, category := "Food", description := "a",
         transaction_type := "expense", date := "2024-01-01" },
       { id := 1, amount := 7, category := "Bills", description := "b",
         transaction_type := "expense", date := "2024-01-02" }]
    categories := default_categories }

/-- C1 counterexample: on a store where two entries share id 1,
`delete_transaction 1` removes BOTH of them (the list comprehension
`[t for t in self.transactions if t.id != transaction_id]` keeps only
non-matching entries), not exactly one as the claim states: the collection
shrinks from two entries to zero. -/
theorem delete_transaction_not_exactly_one :
    (delete_transaction dupIdStore 1).2.1 = true ∧
    dupIdStore.transactions.length = 2 ∧
    (delete_transaction dupIdStore 1).1.transactions.length = 0 ∧
    (delete_transaction dupIdStore 1).1.transactions.length
      ≠ dupIdStore.transactions.length - 1 := by
  refine ⟨rfl, rfl, rfl, ?_⟩
  decide

/-- Exactly one entry is removed by a present-id delete when ids are unique:
the filtered list is one shorter. -/
theorem length_filter_ne_id_of_unique (l : List Transaction) (tid : Int)
    (huniq : l.Pairwise (fun a b => a.id ≠ b.id))
    (hmem : ∃ t ∈ l, t.id = tid) :
    (l.filter (fun t => t.id ≠ tid)).length + 1 = l.length := by
  induction l with
  | nil => simp at hmem
  | cons x xs ih =>
    rw [List.pairwise_cons] at huniq
    by_cases hx : x.id = tid
    · have hxs : xs.filter (fun t => t.id ≠ tid) = xs := by
        rw [List.filter_eq_self]
        intro a ha
        simp only [ne_eq, decide_not, Bool.not_eq_eq_eq_not, Bool.not_true, decide_eq_false_iff_not]
        intro he
        exact huniq.1 a ha (hx.trans he.symm)
      have h1 : (x :: xs).filter (fun t => t.id ≠ tid) = xs.filter (fun t => t.id ≠ tid) := by
        simp [List.filter_cons, hx]
      rw [h1, hxs, List.length_cons]
    · rcases hmem with ⟨t, ht, htid⟩
      rcases List.mem_cons.mp ht with heq | ht1
      · exact absurd (heq ▸ htid) hx
      · have hrec := ih huniq.2 ⟨t, ht1, htid⟩
        have hcons : (x :: xs).filter (fun t => t.id ≠ tid)
            = x :: xs.filter (fun t => t.id ≠ tid) := by
          simp [List.filter_cons, hx]
        rw [hcons, List.length_cons, List.length_cons]
        omega

/-- C1 (amended): for EVERY store — duplicate-id states included —
`delete_transaction tid` keeps exactly the entries whose id differs from
`tid` (removing every match, not just the first), returns true exactly when
some entry matched, triggers a save exactly when it returns true, leaves the
vocabularies untouched, and leaves the whole state unchanged when no entry
matches.  Only the final conjunct is conditional: under the store invariant
the original claim appeals to (at most one entry per id, as
`Pairwise (·.id ≠ ·.id)`), a present-id delete removes exactly one entry. -/
theorem delete_transaction_correct (s : FinanceTracker) (tid : Int) :
    (delete_transaction s tid).1.transactions
      = s.transactions.filter (fun t => t.id ≠ tid) ∧
    (delete_transaction s tid).1.categories = s.categories ∧
    ((delete_transaction s tid).2.1 = true ↔ ∃ t ∈ s.transactions, t.id = tid) ∧
    (delete_transaction s tid).2.2.isSome = (delete_transaction s tid).2.1 ∧
    ((¬∃ t ∈ s.transactions, t.id = tid) → delete_transaction s tid = (s, false, none)) ∧
    (s.transactions.Pairwise (fun a b => a.id ≠ b.id) →
      (∃ t ∈ s.transactions, t.id = tid) →
      (delete_transaction s tid).1.transactions.length + 1 = s.transactions.length) := by
  have hlt : (s.transactions.filter (fun t => t.id ≠ tid)).length < s.transactions.length
      ↔ ∃ t ∈ s.transactions, t.id = tid := by
    rw [List.length_filter_lt_length_iff_exists]
    simp
  refine ⟨?_, ?_, ?_, ?_, ?_, ?_⟩
  · rw [delete_transaction]
    split <;> rfl
  · rw [delete_transaction]
    split <;> rfl
  · rw [delete_transaction]
    split <;> rename_i hsplit
    · simpa using hlt.mp hsplit
    · simp only [Bool.false_eq_true, false_iff]
      intro hex
      exact hsplit (hlt.mpr hex)
  · rw [delete_transaction]
    split <;> rfl
  · intro hex
    have hall : s.transactions.filter (fun t => t.id ≠ tid) = s.transactions := by
      rw [List.filter_eq_self]
      intro a ha
      simp only [ne_eq, decide_not, Bool.not_eq_eq_eq_not, Bool.not_true, decide_eq_false_iff_not]
      intro he
      exact hex ⟨a, ha, he⟩
    rw [delete_transaction]
    split <;> rename_i hsplit
    · rw [hall] at hsplit
      exact absurd hsplit (lt_irrefl _)
    · rw [hall]
  · intro huniq hex
    rw [delete_transaction]
    split
    · exact length_filter_ne_id_of_unique s.transactions tid huniq hex
    · exact absurd (hlt.mpr hex) (by assumption)

/-- A concrete two-entry store with distinct ids, for the C1 witness. -/
def twoIdStore : FinanceTracker :=
  { transactions :=
      [{ id := 1, amount := 5, category := "Food", description := "a",
         transaction_type := "expense", date := "2024-01-01" },
       { id := 2, amount := 7, category := "Bills", description := "b",
         transaction_type := "expense", date := "2024-01-02" }]
    categories := default_categories }

/-- C1 witness: the amended statement instantiated concretely — the
unconditional part at the duplicate-id store (delete returns true exactly
when some entry matches), and the invariant-conditioned part at a two-entry
store with distinct ids (deleting the present id 1 removes exactly one
entry). -/
theorem delete_transaction_correct_witness :
    ((delete_transaction dupIdStore 1).2.1 = true
      ↔ ∃ t ∈ dupIdStore.transactions, t.id = 1) ∧
    (delete_transaction twoIdStore 1).1.transactions.length + 1
      = twoIdStore.transactions.length :=
  ⟨(delete_transaction_correct dupIdStore 1).2.2.1,
   (delete_transaction_correct twoIdStore 1).2.2.2.2.2 (by decide) (by decide)⟩

theorem ok_bind {α β : Type} (a : α) (f : α → Except PyErr β) :
    (Except.ok a >>= f) = f a := rfl

theorem error_bind {α β : Type} (e : PyErr) (f : α → Except PyErr β) :
    ((Except.error e : Except PyErr α) >>= f) = Except.error e := rfl

theorem except_bind_ok {α β : Type} {x : Except PyErr α} {f : α → Except PyErr β} {b : β}
    (h : (x >>= f) = .ok b) : ∃ a, x = .ok a ∧ f a = .ok b := by
  cases x with
  | error e => rw [error_bind] at h; exact absurd h (by simp)
  | ok a => exact ⟨a, rfl, by rw [ok_bind] at h; exact h⟩

theorem mem_mergeCats (x : String) (a b : List String) :
    x ∈ mergeCats a b ↔ x ∈ a ∨ x ∈ b := by
  simp [mergeCats, List.mem_dedup]

/-- The category-merge loop only ever replaces a vocabulary by a superset. -/
theorem loadCategories_superset (l : List (String × JValue)) :
    ∀ c0 c1 : Categories, loadCategories c0 l = .ok c1 →
      (∀ x ∈ c0.income, x ∈ c1.income) ∧ (∀ x ∈ c0.expense, x ∈ c1.expense) := by
  induction l with
  | nil =>
    intro c0 c1 h
    rw [loadCategories] at h
    injection h with h
    subst h
    exact ⟨fun x hx => hx, fun x hx => hx⟩
  | cons p rest ih =>
    intro c0 c1 h
    rcases p with ⟨k, v⟩
    rw [loadCategories] at h
    by_cases hk1 : k = "income"
    · rw [if_pos hk1] at h
      cases hv : asStrList v with
      | error e => rw [hv, error_bind] at h; exact absurd h (by simp)
      | ok cs =>
        rw [hv, ok_bind] at h
        have hsub := ih _ _ h
        refine ⟨fun x hx => hsub.1 x ?_, hsub.2⟩
        exact (mem_mergeCats x c0.income cs).mpr (Or.inl hx)
    · rw [if_neg hk1] at h
      by_cases hk2 : k = "expense"
      · rw [if_pos hk2] at h
        cases hv : asStrList v with
        | error e => rw [hv, error_bind] at h; exact absurd h (by simp)
        | ok cs =>
          rw [hv, ok_bind] at h
          have hsub := ih _ _ h
          refine ⟨hsub.1, fun x hx => hsub.2 x ?_⟩
          exact (mem_mergeCats x c0.expense cs).mpr (Or.inl hx)
      · rw [if_neg hk2] at h
        exact ih _ _ h

/-- A successful `loadBody` obtains its vocabularies from the merge loop,
started at the defaults. -/
theorem loadBody_ok_categories (data : JValue) (now : String) (s' : FinanceTracker)
    (h : loadBody data now = .ok s') :
    ∃ fileCats, loadCategories default_categories fileCats = .ok s'.categories := by
  rw [loadBody] at h
  obtain ⟨txnsV, h1, h⟩ := except_bind_ok h
  obtain ⟨items, h2, h⟩ := except_bind_ok h
  obtain ⟨txns, h3, h⟩ := except_bind_ok h
  obtain ⟨catsV, h4, h⟩ := except_bind_ok h
  obtain ⟨fileCats, h5, h⟩ := except_bind_ok h
  obtain ⟨cats, h6, h⟩ := except_bind_ok h
  injection h with h
  subst h
  exact ⟨fileCats, h6⟩

/-- The category bookkeeping of a valid `add_transaction` only ever appends. -/
theorem addCategory_superset (cats : Categories) (kind category : String) :
    (∀ c ∈ cats.income, c ∈ (addCategory cats kind category).income) ∧
    (∀ c ∈ cats.expense, c ∈ (addCategory cats kind category).expense) := by
  rw [addCategory]
  by_cases hk : kind = "income"
  · rw [if_pos hk]
    by_cases hc : category ∈ cats.income
    · rw [if_pos hc]
      exact ⟨fun c h => h, fun c h => h⟩
    · rw [if_neg hc]
      exact ⟨fun c h => List.mem_append_left _ h, fun c h => h⟩
  · rw [if_neg hk]
    by_cases hc : category ∈ cats.expense
    · rw [if_pos hc]
      exact ⟨fun c h => h, fun c h => h⟩
    · rw [if_neg hc]
      exact ⟨fun c h => h, fun c h => List.mem_append_left _ h⟩

/-- C8: the category-vocabulary invariant.  Every constructed store (any
outcome of `load_data`, which starts from the defaults and only merges
supersets) has vocabularies containing the fixed default lists; a (valid or
invalid) `add_transaction` never removes a category that was present before
it ran; `delete_transaction` leaves both vocabularies exactly unchanged.
Together: vocabularies only grow, and stay supersets of the defaults, across
construction, load, add and delete. -/
theorem categories_monotone :
    (∀ (file : Option (Option JValue)) (now : String) (s' : FinanceTracker),
        load_data file now = .ok s' →
        (∀ c ∈ default_categories.income, c ∈ s'.categories.income) ∧
        (∀ c ∈ default_categories.expense, c ∈ s'.categories.expense)) ∧
    (∀ (s : FinanceTracker) (amount : Int)
        (category description transaction_type : String)
        (date : Option String) (now : String) (micros : Int),
        (∀ c ∈ s.categories.income,
          c ∈ (add_transaction s amount category description transaction_type date now
            micros).1.categories.income) ∧
        (∀ c ∈ s.categories.expense,
          c ∈ (add_transaction s amount category description transaction_type date now
            micros).1.categories.expense)) ∧
    (∀ (s : FinanceTracker) (tid : Int),
        (delete_transaction s tid).1.categories = s.categories) := by
  refine ⟨?_, ?_, ?_⟩
  · intro file now s' h
    match file with
    | none =>
      rw [load_data] at h
      injection h with h
      subst h
      exact ⟨fun c hc => hc, fun c hc => hc⟩
    | some none =>
      rw [load_data] at h
      injection h with h
      subst h
      exact ⟨fun c hc => hc, fun c hc => hc⟩
    | some (some data) =>
      rw [load_data] at h
      cases hb : loadBody data now with
      | ok s2 =>
        rw [hb] at h
        injection h with h
        subst h
        obtain ⟨fileCats, hcats⟩ := loadBody_ok_categories data now s2 hb
        exact loadCategories_superset fileCats default_categories s2.categories hcats
      | error e =>
        rw [hb] at h
        cases e with
        | keyError =>
          injection h with h
          subst h
          exact ⟨fun c hc => hc, fun c hc => hc⟩
        | typeError => exact absurd h (by simp)
        | valueError => exact absurd h (by simp)
        | attrError => exact absurd h (by simp)
  · intro s amount category description transaction_type date now micros
    rw [add_transaction]
    by_cases hmem : pyLower transaction_type ∉ (["income", "expense"] : List String)
    · rw [if_pos hmem]
      exact ⟨fun c h => h, fun c h => h⟩
    · rw [if_neg hmem]
      exact addCategory_superset s.categories (pyLower transaction_type) category
  · intro s tid
    rw [delete_transaction]
    split <;> rfl

/-- C8 witness: the invariant instantiated concretely — loading an empty JSON
object yields a store whose vocabularies contain the defaults. -/
theorem categories_monotone_witness :
    ∀ c ∈ default_categories.income,
      c ∈ ({ transactions := [], categories := default_categories } :
        FinanceTracker).categories.income :=
  (categories_monotone.1 (some (some (.jobj []))) "2024-01-01"
    { transactions := [], categories := default_categories } rfl).1

/-- Membership through one optional filter, when the argument is not the
(falsy, hence skipped) empty string. -/
theorem mem_filterArg (l : List Transaction) (arg : Option String)
    (p : String → Transaction → Bool) (t : Transaction)
    (harg : ∀ a, arg = some a → a ≠ "") :
    t ∈ filterArg l arg p ↔ t ∈ l ∧ ∀ a, arg = some a → p a t = true := by
  cases arg with
  | none => simp [filterArg]
  | some a =>
    rw [filterArg, if_neg (harg a rfl)]
    simp [List.mem_filter]

/-- The entry dated 2024-01-31 of the spec's concrete filter example. -/
def jan31entry : Transaction :=
  { id := 1, amount := 5, category := "Food", description := "before the range",
    transaction_type := "expense", date := "2024-01-31" }

/-- The entry dated 2024-02-15 of the spec's concrete filter example. -/
def feb15entry : Transaction :=
  { id := 2, amount := 6, category := "Food", description := "inside the range",
    transaction_type := "expense", date := "2024-02-15" }

/-- The two-entry store of the spec's concrete filter example. -/
def febStore : FinanceTracker :=
  { transactions := [jan31entry, feb15entry], categories := default_categories }

/-- C4: for every store and every combination of optional arguments (given
arguments being genuine, non-empty strings — Python's `if arg:` treats `""`
like an omitted argument), `get_transactions` keeps exactly the entries whose
date is `>= start` (when given), `<= end` (when given, inclusive), whose
category equals the given one ignoring letter case (when given) and whose
stored kind equals the lowercased given kind (when given); the result is
sorted by date descending; and concretely the range 2024-02-01..2024-02-29
excludes the entry dated 2024-01-31 and keeps the one dated 2024-02-15.  The
source filters a copy of the collection and never mutates the store, which
the embedding reflects by `get_transactions` being a pure function of the
state. -/
theorem get_transactions_spec (s : FinanceTracker) (sd ed cat ty : Option String)
    (hsd : ∀ a, sd = some a → a ≠ "") (hed : ∀ a, ed = some a → a ≠ "")
    (hcat : ∀ a, cat = some a → a ≠ "") (hty : ∀ a, ty = some a → a ≠ "") :
    (∀ t, t ∈ get_transactions s sd ed cat ty ↔
        t ∈ s.transactions ∧
        (∀ a, sd = some a → pyStrLe a t.date = true) ∧
        (∀ a, ed = some a → pyStrLe t.date a = true) ∧
        (∀ a, cat = some a → pyLower t.category = pyLower a) ∧
        (∀ a, ty = some a → t.transaction_type = pyLower a)) ∧
    List.Sorted (fun a b => pyStrLe b.date a.date = true)
      (get_transactions s sd ed cat ty) ∧
    get_transactions febStore (some "2024-02-01") (some "2024-02-29") none none
      = [feb15entry] := by
  refine ⟨?_, ?_, by decide⟩
  · intro t
    have hunfold : get_transactions s sd ed cat ty
        = sortBy dateDescLe
            (filterArg
              (filterArg
                (filterArg
                  (filterArg s.transactions sd (fun a t => pyStrLe a t.date))
                  ed (fun a t => pyStrLe t.date a))
                cat (fun a t => pyLower t.category = pyLower a))
              ty (fun a t => t.transaction_type = pyLower a)) := rfl
    rw [hunfold, mem_sortBy]
    rw [mem_filterArg _ _ _ _ hty, mem_filterArg _ _ _ _ hcat,
      mem_filterArg _ _ _ _ hed, mem_filterArg _ _ _ _ hsd]
    simp only [decide_eq_true_eq]
    tauto
  · exact sortBy_sorted dateDescLe dateDescLe_total dateDescLe_trans _

/-- C4 witness: the spec's example instantiated — the 2024-02-15 entry passes
the 2024-02-01..2024-02-29 range filter. -/
theorem get_transactions_spec_witness :
    feb15entry ∈ get_transactions febStore (some "2024-02-01") (some "2024-02-29")
      none none := by
  have h := get_transactions_spec febStore (some "2024-02-01") (some "2024-02-29") none none
    (by intro a ha; cases ha; decide) (by intro a ha; cases ha; decide)
    (by intro a ha; cases ha) (by intro a ha; cases ha)
  refine (h.1 feb15entry).mpr ⟨by decide, ?_, ?_, ?_, ?_⟩
  · intro a ha
    cases ha
    decide
  · intro a ha
    cases ha
    decide
  · intro a ha
    cases ha
  · intro a ha
    cases ha

/-- C5: every valid `add_transaction` (lowercased kind is income or expense)
returns an entry whose amount is the absolute value of the input, whose id is
the freshly generated one, whose category, description and (lowercased) kind
are the inputs, and whose date is the given one or — when unspecified — the
current date; the entry is appended to the collection; a subsequent
no-filter `get_transactions` on the new state contains it; and when the
category was new for that kind it is in the vocabulary of the new state. -/
theorem add_transaction_valid (s : FinanceTracker) (amount : Int)
    (category description transaction_type : String) (date : Option String)
    (now : String) (micros : Int)
    (h : pyLower transaction_type = "income" ∨ pyLower transaction_type = "expense") :
    ∃ t : Transaction,
      (add_transaction s amount category description transaction_type date now micros).2.1
        = .ok t ∧
      t.amount = |amount| ∧
      t.id = generate_id micros ∧
      t.category = category ∧
      t.description = description ∧
      t.transaction_type = pyLower transaction_type ∧
      t.date = pyOrDate date now ∧
      (date = none → t.date = now) ∧
      (add_transaction s amount category description transaction_type date now
        micros).1.transactions = s.transactions ++ [t] ∧
      t ∈ get_transactions
        (add_transaction s amount category description transaction_type date now micros).1
        none none none none ∧
      (pyLower transaction_type = "income" →
        category ∈ (add_transaction s amount category description transaction_type date now
          micros).1.categories.income) ∧
      (pyLower transaction_type = "expense" →
        category ∈ (add_transaction s amount category description transaction_type date now
          micros).1.categories.expense) := by
  have hmem : pyLower transaction_type ∈ (["income", "expense"] : List String) := by
    rcases h with h | h <;> simp [h]
  have hnn : ¬(pyLower transaction_type ∉ (["income", "expense"] : List String)) :=
    fun hc => hc hmem
  simp only [add_transaction, if_neg hnn]
  refine ⟨Transaction.make (generate_id micros) amount category description transaction_type
    date now, rfl, rfl, rfl, rfl, rfl, rfl, rfl, ?_, rfl, ?_, ?_, ?_⟩
  · intro hd
    subst hd
    rfl
  · rw [show ∀ s2 : FinanceTracker, get_transactions s2 none none none none
        = sortBy dateDescLe s2.transactions from fun s2 => rfl]
    rw [mem_sortBy]
    simp
  · intro hk
    rw [addCategory, if_pos hk]
    by_cases hc : category ∈ s.categories.income
    · rw [if_pos hc]
      exact hc
    · rw [if_neg hc]
      simp
  · intro hk
    have hk1 : pyLower transaction_type ≠ "income" := by
      rw [hk]
      decide
    rw [addCategory, if_neg hk1]
    by_cases hc : category ∈ s.categories.expense
    · rw [if_pos hc]
      exact hc
    · rw [if_neg hc]
      simp

/-- C5 witness: adding `-25` as `"Income"` (mixed case, no date) to an empty
store succeeds and stores amount 25. -/
theorem add_transaction_valid_witness :
    ∃ t : Transaction,
      (add_transaction { transactions := [], categories := default_categories } (-25) "Tips"
        "cash tip" "Income" none "2024-03-05" 123).2.1 = .ok t ∧
      t.amount = 25 ∧ t.date = "2024-03-05" := by
  obtain ⟨t, h1, h2, h3, h4, h5, h6, h7, h8, rest⟩ :=
    add_transaction_valid { transactions := [], categories := default_categories } (-25)
      "Tips" "cash tip" "Income" none "2024-03-05" 123 (by decide)
  refine ⟨t, h1, ?_, h8 rfl⟩
  rw [h2]
  decide

theorem mem_of_mem_filterArg (l : List Transaction) (arg : Option String)
    (p : String → Transaction → Bool) (t : Transaction) (h : t ∈ filterArg l arg p) :
    t ∈ l := by
  cases arg with
  | none => exact h
  | some a =>
    rw [filterArg] at h
    split at h
    · exact h
    · exact (List.mem_filter.mp h).1

theorem mem_of_mem_get_transactions (s : FinanceTracker) (sd ed cat ty : Option String)
    (t : Transaction) (h : t ∈ get_transactions s sd ed cat ty) : t ∈ s.transactions := by
  rw [show get_transactions s sd ed cat ty
      = sortBy dateDescLe
          (filterArg
            (filterArg
              (filterArg
                (filterArg s.transactions sd (fun a t => pyStrLe a t.date))
                ed (fun a t => pyStrLe t.date a))
              cat (fun a t => pyLower t.category = pyLower a))
            ty (fun a t => t.transaction_type = pyLower a)) from rfl, mem_sortBy] at h
  exact mem_of_mem_filterArg _ _ _ _ (mem_of_mem_filterArg _ _ _ _
    (mem_of_mem_filterArg _ _ _ _ (mem_of_mem_filterArg _ _ _ _ h)))

/-- The summary loop succeeds whenever every entry's kind is one of the two
dictionary keys. -/
theorem buildSummary_ok (l : List Transaction)
    (h : ∀ t ∈ l, t.transaction_type = "income" ∨ t.transaction_type = "expense") :
    ∀ acc : Summary, ∃ cs, buildSummary l acc = .ok cs := by
  induction l with
  | nil => intro acc; exact ⟨acc, rfl⟩
  | cons t ts ih =>
    intro acc
    have hts : ∀ t1 ∈ ts, t1.transaction_type = "income" ∨ t1.transaction_type = "expense" :=
      fun t1 ht1 => h t1 (by simp [ht1])
    by_cases hti : t.transaction_type = "income"
    · rw [buildSummary, if_pos hti]
      exact ih hts _
    · have hte : t.transaction_type = "expense" := (h t (by simp)).resolve_left hti
      rw [buildSummary, if_neg hti, if_pos hte]
      exact ih hts _

/-- C7: for every period and every entry collection whose kinds are valid
(as every entry built by the program is), the report computation succeeds,
its text renders the income and expense blocks from `sortByAmountDesc` of the
category summary, both of those listings are sorted by summed amount in
descending order, a block is the empty string whenever its summary is empty,
and concretely Food=50 and Bills=200 are listed with Bills first. -/
theorem generate_report_spec (s : FinanceTracker) (period now7 now30 now365 : String)
    (h : ∀ t ∈ s.transactions,
      t.transaction_type = "income" ∨ t.transaction_type = "expense") :
    ∃ cs : Summary,
      get_category_summary s (periodStart period now7 now30 now365) none = .ok cs ∧
      generate_report s period now7 now30 now365
        = .ok (reportText period
            (get_balance s (periodStart period now7 now30 now365) none) cs) ∧
      List.Sorted (fun a b : String × Int => b.2 ≤ a.2) (sortByAmountDesc cs.income) ∧
      List.Sorted (fun a b : String × Int => b.2 ≤ a.2) (sortByAmountDesc cs.expense) ∧
      (cs.income = [] → incomeBlock cs.income = "") ∧
      (cs.expense = [] → expenseBlock cs.expense = "") ∧
      (sortByAmountDesc [("Food", 50), ("Bills", 200)]).map Prod.fst
        = ["Bills", "Food"] := by
  obtain ⟨cs, hcs⟩ := buildSummary_ok
    (get_transactions s (periodStart period now7 now30 now365) none none none)
    (fun t ht => h t (mem_of_mem_get_transactions s _ none none none t ht))
    { income := [], expense := [] }
  have hsum : get_category_summary s (periodStart period now7 now30 now365) none = .ok cs := by
    rw [get_category_summary]
    exact hcs
  have hsorted : ∀ m : List (String × Int),
      List.Sorted (fun a b : String × Int => b.2 ≤ a.2) (sortByAmountDesc m) := by
    intro m
    have := sortBy_sorted amountDescLe amountDescLe_total amountDescLe_trans m
    exact this.imp (fun hab => of_decide_eq_true hab)
  refine ⟨cs, hsum, ?_, hsorted cs.income, hsorted cs.expense, ?_, ?_, by decide⟩
  · rw [show generate_report s period now7 now30 now365
        = (get_category_summary s (periodStart period now7 now30 now365) none >>=
            fun cs1 => .ok (reportText period
              (get_balance s (periodStart period now7 now30 now365) none) cs1)) from rfl,
      hsum, ok_bind]
  · intro he
    rw [he]
    rfl
  · intro he
    rw [he]
    rfl

/-- C7 witness: the report properties instantiated at a concrete one-entry
store and the period tag `"all"` (no lower bound). -/
theorem generate_report_spec_witness :
    ∃ cs : Summary,
      get_category_summary
        { transactions :=
            [{ id := 3, amount := 40, category := "Food", description := "w",
               transaction_type := "expense", date := "2024-04-01" }],
          categories := default_categories }
        (periodStart "all" "2024-03-25" "2024-03-02" "2023-04-01") none = .ok cs := by
  obtain ⟨cs, h1, rest⟩ := generate_report_spec
    { transactions :=
        [{ id := 3, amount := 40, category := "Food", description := "w",
           transaction_type := "expense", date := "2024-04-01" }],
      categories := default_categories }
    "all" "2024-03-25" "2024-03-02" "2023-04-01" (by decide)
  exact ⟨cs, h1⟩

/-- Serialization round-trip of one entry.  The hypotheses are exactly the
invariants `Transaction.make` (and hence `from_dict`) establishes for every
entry the program constructs: the stored amount is an absolute value, the
stored kind is already in lowercase normal form, and the stored date is a
non-empty string. -/
theorem from_dict_to_dict (t : Transaction) (now : String) (h0 : 0 ≤ t.amount)
    (h1 : pyLower t.transaction_type = t.transaction_type) (h2 : t.date ≠ "") :
    Transaction.from_dict (Transaction.to_dict t) now = .ok t := by
  rw [show Transaction.from_dict (Transaction.to_dict t) now
      = .ok ⟨t.id, |t.amount|, t.category, t.description, pyLower t.transaction_type,
          pyOrDate (some t.date) now⟩ from rfl]
  rw [abs_of_nonneg h0, h1]
  rw [show pyOrDate (some t.date) now = if t.date = "" then now else t.date from rfl,
    if_neg h2]

theorem mapM_from_dict_to_dict (now : String) (l : List Transaction)
    (h : ∀ t ∈ l, Transaction.from_dict (Transaction.to_dict t) now = .ok t) :
    (l.map Transaction.to_dict).mapM (fun v => Transaction.from_dict v now) = .ok l := by
  induction l with
  | nil => rfl
  | cons x xs ih =>
    simp only [List.map_cons, List.mapM_cons]
    rw [h x (by simp), ih (fun t ht => h t (by simp [ht]))]
    rfl

theorem asStrList_jstr (l : List String) : asStrList (.jarr (l.map .jstr)) = .ok l := by
  have hfm : (l.map JValue.jstr).filterMap strOfHashable = l := by
    induction l with
    | nil => rfl
    | cons x xs ih =>
      rw [List.map_cons, show ((JValue.jstr x :: xs.map JValue.jstr).filterMap strOfHashable)
        = x :: (xs.map JValue.jstr).filterMap strOfHashable from rfl, ih]
  have hall : (l.map JValue.jstr).all pyHashable = true := by
    rw [List.all_eq_true]
    intro v hv
    obtain ⟨s, hs, heq⟩ := List.mem_map.mp hv
    rw [← heq]
    rfl
  rw [show asStrList (.jarr (l.map .jstr))
      = if (l.map JValue.jstr).all pyHashable then
          .ok ((l.map JValue.jstr).filterMap strOfHashable)
        else .error .typeError from rfl,
    if_pos hall, hfm]

/-- Loading back the document `save_data` wrote: the entries parse back
verbatim (given the entry round-trip) and each vocabulary becomes the union
of the defaults with the saved one. -/
theorem loadBody_save (s : FinanceTracker) (now : String)
    (h : (s.transactions.map Transaction.to_dict).mapM
      (fun v => Transaction.from_dict v now) = .ok s.transactions) :
    loadBody (save_data s) now = .ok
      { transactions := s.transactions,
        categories :=
          { income := mergeCats default_categories.income s.categories.income,
            expense := mergeCats default_categories.expense s.categories.expense } } := by
  rw [show loadBody (save_data s) now
      = ((s.transactions.map Transaction.to_dict).mapM
          (fun t => Transaction.from_dict t now) >>= fun txns =>
         (asStrList (.jarr (s.categories.income.map .jstr)) >>= fun cs1 =>
          asStrList (.jarr (s.categories.expense.map .jstr)) >>= fun cs2 =>
          Except.ok
            { income := mergeCats default_categories.income cs1,
              expense := mergeCats default_categories.expense cs2 }) >>= fun cats =>
         Except.ok { transactions := txns, categories := cats })
      from rfl]
  rw [h]
  simp only [ok_bind, asStrList_jstr]

attribute [irreducible] mergeCats

/-- C6: persistence round-trip.  For every store whose entries satisfy the
constructor-established invariants (non-negative amount, lowercase-normal
kind — which is also exactly how `to_dict` serializes the kind — and
non-empty date), `save_data` followed by a fresh construction from the same
document succeeds and yields an entry collection equal entry by entry on all
fields, and vocabularies that are supersets of the originals. -/
theorem save_load_roundtrip (s : FinanceTracker) (now : String)
    (h : ∀ t ∈ s.transactions,
      0 ≤ t.amount ∧ pyLower t.transaction_type = t.transaction_type ∧ t.date ≠ "") :
    ∃ s' : FinanceTracker,
      load_data (some (some (save_data s))) now = .ok s' ∧
      s'.transactions = s.transactions ∧
      (∀ c ∈ s.categories.income, c ∈ s'.categories.income) ∧
      (∀ c ∈ s.categories.expense, c ∈ s'.categories.expense) := by
  have hmap : (s.transactions.map Transaction.to_dict).mapM
      (fun v => Transaction.from_dict v now) = .ok s.transactions :=
    mapM_from_dict_to_dict now s.transactions
      (fun t ht => from_dict_to_dict t now (h t ht).1 (h t ht).2.1 (h t ht).2.2)
  have hbody := loadBody_save s now hmap
  refine ⟨{ transactions := s.transactions,
            categories :=
              { income := mergeCats default_categories.income s.categories.income,
                expense := mergeCats default_categories.expense s.categories.expense } },
    ?_, rfl, ?_, ?_⟩
  · rw [load_data, hbody]
  · intro c hc
    exact (mem_mergeCats _ _ _).mpr (Or.inr hc)
  · intro c hc
    exact (mem_mergeCats _ _ _).mpr (Or.inr hc)

/-- A concrete store with one entry and one custom expense category, for the
C6 witness. -/
def rtStore : FinanceTracker :=
  { transactions :=
      [{ id := 42, amount := 99, category := "Gym", description := "membership",
         transaction_type := "expense", date := "2024-05-05" }]
    categories := { income := default_categories.income,
                    expense := "Gym" :: default_categories.expense } }

/-- C6 witness: the round-trip instantiated at a concrete store. -/
theorem save_load_roundtrip_witness :
    ∃ s' : FinanceTracker,
      load_data (some (some (save_data rtStore))) "2024-06-01" = .ok s' ∧
      s'.transactions = rtStore.transactions := by
  obtain ⟨s', h1, h2, h3, h4⟩ := save_load_roundtrip rtStore "2024-06-01" (by decide)
  exact ⟨s', h1, h2⟩

/-- C2 counterexample: constructing a store from the well-formed JSON
document whose `transactions` field is the number 5 raises an uncaught
`TypeError` (a number is not iterable) instead of being reported and treated
as empty — the `except` clause catches only `JSONDecodeError` and
`KeyError`. -/
theorem load_data_raises_on_nonlist_transactions :
    load_data (some (some (.jobj [("transactions", .jnum 5)]))) "2024-01-01"
      = .error .typeError := rfl

/-- C2 (amended): construction never raises for an absent file or a
syntactically invalid (undecodable) file — both start empty with the default
categories; a `KeyError` inside the `try` block (a transaction record missing
one of its keys — the only `KeyError` site, reached before any state is
assigned) is likewise reported and recovered to the empty collection with
default categories; a successful body is returned as is; but any other
exception (`TypeError`, `AttributeError`) propagates out of the constructor
instead of being recovered.  The final conjuncts pin the classification down
concretely, raising and non-raising cases both: an empty-string or empty-dict
`transactions` field is iterable, iterates zero times and constructs an empty
store without raising; a non-empty string iterates its characters, which then
fail record subscription with an uncaught `TypeError`; a boolean amount is
accepted (`abs(True) = 1` — Python's `bool` is an `int`), while a null amount
raises an uncaught `TypeError`. -/
theorem load_data_recovery (v : JValue) (now : String) :
    load_data none now = .ok { transactions := [], categories := default_categories } ∧
    load_data (some none) now
      = .ok { transactions := [], categories := default_categories } ∧
    (loadBody v now = .error .keyError →
      load_data (some (some v)) now
        = .ok { transactions := [], categories := default_categories }) ∧
    (∀ s', loadBody v now = .ok s' → load_data (some (some v)) now = .ok s') ∧
    (∀ e, e ≠ .keyError → loadBody v now = .error e →
      load_data (some (some v)) now = .error e) ∧
    load_data (some (some (.jobj [("transactions", .jstr "")]))) "2024-01-01"
      = .ok { transactions := [], categories := default_categories } ∧
    load_data (some (some (.jobj [("transactions", .jobj [])]))) "2024-01-01"
      = .ok { transactions := [], categories := default_categories } ∧
    load_data (some (some (.jobj [("transactions", .jstr "ab")]))) "2024-01-01"
      = .error .typeError ∧
    load_data (some (some (.jobj [("transactions", .jarr [.jobj
        [("amount", .jbool true), ("category", .jstr "Food"),
         ("description", .jstr "d"), ("type", .jstr "expense"),
         ("date", .jstr "2024-01-05"), ("id", .jnum 7)]])]))) "2024-01-01"
      = .ok ⟨[⟨7, 1, "Food", "d", "expense", "2024-01-05"⟩], default_categories⟩ ∧
    load_data (some (some (.jobj [("transactions", .jarr [.jobj
        [("amount", .jnull), ("category", .jstr "Food"),
         ("description", .jstr "d"), ("type", .jstr "expense"),
         ("date", .jstr "2024-01-05"), ("id", .jnum 7)]])]))) "2024-01-01"
      = .error .typeError := by
  refine ⟨rfl, rfl, ?_, ?_, ?_, rfl, rfl, rfl, rfl, rfl⟩
  · intro h
    rw [load_data, h]
  · intro s' h
    rw [load_data, h]
  · intro e he h
    rw [load_data, h]
    cases e with
    | keyError => exact absurd rfl he
    | typeError => rfl
    | valueError => rfl
    | attrError => rfl

/-- C2 witness: a transaction record missing all its keys (`[{}]`) makes the
body raise `KeyError`, which construction recovers to the empty store with
default categories. -/
theorem load_data_recovery_witness :
    load_data (some (some (.jobj [("transactions", .jarr [.jobj []])]))) "2024-01-01"
      = .ok { transactions := [], categories := default_categories } :=
  (load_data_recovery (.jobj [("transactions", .jarr [.jobj []])]) "2024-01-01").2.2.1 rfl
